import Mathlib

/-!
Verification of the data-normalization routine of the
`data_norm_mini_class` repository.

The repository's only logic is `normalize_data`, which splits a flat
AARC table into normalized entity/relationship tables by
groupby-aggregation. The notebook `src/notebooks/data_norm_class.ipynb`
documents the groupby/aggregate snippets it runs; the
`data_norm_class.normalization` module itself is not shipped in the
repository snapshot, so the parts of the routine not shown in the
notebook are modelled from the specification (each such definition says
so in its doc comment).

Tables are embedded shallowly: a table is a list of column names plus a
list of rows, each row a list of cells, and a cell is an optional value
(`none` models a null / NaN entry).
-/

/-- An atomic cell value: the flat AARC table stores integers (ids,
years), strings (names, ranks, taxonomy labels) and booleans (flags). -/
inductive Val : Type where
  | i (n : Int) : Val
  | s (t : String) : Val
  | b (x : Bool) : Val
deriving DecidableEq, Repr

/-- A cell of a table: `none` is a null (pandas NaN) entry. -/
abbrev Cell : Type := Option Val

/-- A dataframe: named columns and rows of cells, row-aligned with
`cols` positionally. -/
structure Table : Type where
  cols : List String
  rows : List (List Cell)
deriving DecidableEq, Repr

/-- Read the cell of row `r` under column name `c` (positional lookup
through the column list; a column absent from `cols` reads as null). -/
def getCell (cols : List String) (r : List Cell) (c : String) : Cell :=
  match cols.findIdx? (fun d => d = c) with
  | some i => r.getD i none
  | none => none

/-- The key tuple of a row under key columns `keys`. -/
def rowKey (cols keys : List String) (r : List Cell) : List Cell :=
  keys.map (getCell cols r)

/-- Helper of `dedupFirst`: drop every element already in `seen` or
seen earlier in the traversal. -/
def dedupFirstAux {α : Type} [DecidableEq α] : List α → List α → List α
  | _, [] => []
  | seen, a :: as =>
    if a ∈ seen then dedupFirstAux seen as
    else a :: dedupFirstAux (a :: seen) as

/-- Keep the first occurrence of every element, in first-seen order
(the order `pandas` enumerates distinct values in). -/
def dedupFirst {α : Type} [DecidableEq α] (l : List α) : List α :=
  dedupFirstAux [] l

/-- Reference formulation of first-seen deduplication, by filtering the
tail at each step; equal to `dedupFirst` and easier to reason about. -/
def dedupFirstRec {α : Type} [DecidableEq α] : List α → List α
  | [] => []
  | a :: as => a :: dedupFirstRec (as.filter (fun x => x ≠ a))
termination_by l => l.length
decreasing_by
  simp only [List.length_cons]
  exact Nat.lt_succ_of_le (List.length_filter_le _ _)

/-- The first non-null entry of a list of cells, or null if there is
none: the semantics of the pandas groupby aggregation `"first"` used
throughout `normalize_data`. -/
def firstNonNull : List Cell → Cell
  | [] => none
  | some v :: _ => some v
  | none :: cs => firstNonNull cs

/-- Order on values used to model the sorted group keys of pandas
`groupby(..., sort=True)` (the default used by `normalize_data`):
integers below strings below booleans, each class ordered naturally. -/
def Val.le : Val → Val → Prop
  | .i m, .i n => m ≤ n
  | .i _, .s _ => True
  | .i _, .b _ => True
  | .s _, .i _ => False
  | .s a, .s t => a ≤ t
  | .s _, .b _ => True
  | .b _, .i _ => False
  | .b _, .s _ => False
  | .b x, .b y => x ≤ y

instance : DecidableRel Val.le := fun a b => by
  cases a <;> cases b <;> simp only [Val.le] <;> infer_instance

/-- Order on cells: nulls sort last, as pandas places NaN group keys
last under the default sort. -/
def Cell.le : Cell → Cell → Prop
  | _, none => True
  | none, some _ => False
  | some a, some b => Val.le a b

instance : DecidableRel Cell.le := fun a b => by
  cases a <;> cases b <;> simp only [Cell.le] <;> infer_instance

/-- Lexicographic order on key tuples. -/
def keyLe : List Cell → List Cell → Prop
  | [], _ => True
  | _ :: _, [] => False
  | a :: as, b :: bs => if a = b then keyLe as bs else Cell.le a b

instance : DecidableRel keyLe := fun k l => by
  induction k generalizing l with
  | nil => exact .isTrue trivial
  | cons a as ih =>
    cases l with
    | nil => exact .isFalse (fun h => h)
    | cons b bs =>
      simp only [keyLe]
      by_cases hab : a = b
      · simp only [hab, if_pos rfl]; exact ih bs
      · simp only [if_neg hab]; infer_instance

/-- The key tuples `groupby(keys, dropna)` groups the rows of `df` by:
one per input row, with tuples containing a null dropped when `dropna`
is set (the pandas default). -/
def keptKeys (df : Table) (keys : List String) (dropna : Bool) :
    List (List Cell) :=
  let allKeys := df.rows.map (rowKey df.cols keys)
  if dropna then allKeys.filter (fun k => !(k.any (fun c => c.isNone)))
  else allKeys

/-- The input rows of `df` falling into the group of key tuple `k`, in
original row order. -/
def groupRows (df : Table) (keys : List String) (k : List Cell) :
    List (List Cell) :=
  df.rows.filter (fun r => rowKey df.cols keys r = k)

/-- The output row the `"first"` aggregation emits for group `k`: the
key tuple followed by the first non-null value of each attribute among
the group's rows in original row order. -/
def aggRow (df : Table) (keys attrs : List String) (k : List Cell) :
    List Cell :=
  k ++ attrs.map (fun a =>
    firstNonNull ((groupRows df keys k).map (fun r => getCell df.cols r a)))

/-- One groupby-aggregate step of `normalize_data`, as documented in the
notebook:
`df.groupby(keys, dropna).aggregate({a : "first" for a in attrs})`.
Group keys are the distinct key tuples of the input (dropping tuples
containing a null when `dropna` is set, the pandas default), listed in
ascending sorted order; each output row is the key tuple followed by
the first non-null value of each attribute among the group's input rows
in original row order. -/
def Table.groupbyAgg (df : Table) (keys attrs : List String) (dropna : Bool) :
    Table :=
  { cols := keys ++ attrs,
    rows := (List.insertionSort keyLe
      (dedupFirst (keptKeys df keys dropna))).map (aggRow df keys attrs) }

/-- Error raised by `normalize_data` when a required source column is
absent from the input table. -/
structure MissingColumnError : Type where
  col : String
deriving DecidableEq, Repr

/-- The source columns `normalize_data` reads: the entity/relationship
key columns plus the per-entity attribute columns. -/
def colsRequired : List String :=
  ["PersonId", "DepartmentId", "InstitutionId", "Year", "TaxonomyId",
   "PersonName", "Gender", "DegreeYear", "DegreeInstitutionId",
   "DepartmentName", "InstitutionName", "Area", "Field", "Umbrella",
   "Rank", "PrimaryAppointment"]

/-- The distinct non-null `Umbrella` values of the input, in first-seen
input row order: the enumeration the synthesized umbrella ids follow. -/
def umbrellaVals (df : Table) : List Cell :=
  (dedupFirst (df.rows.map (fun r => getCell df.cols r "Umbrella"))).filter
    (fun c => !c.isNone)

/-- Modelled from the spec: entities lacking a natural identifier
(umbrella taxonomy names) get a synthesized dense integer id by
enumerating the distinct non-null `Umbrella` values in first-seen input
order and assigning consecutive integers starting at base 0; the table
keeps the mapping from each synthesized `UmbrellaId` back to its
`Umbrella` value. (The `data_norm_class.normalization` module that
builds the artificial ids is not in the repository snapshot.) -/
def mkUmbrellas (df : Table) : Table :=
  { cols := ["UmbrellaId", "Umbrella"],
    rows := (List.range (umbrellaVals df).length).map
      (fun (j : Nat) =>
        [some (Val.i (Int.ofNat j)), (umbrellaVals df).getD j none]) }

/-- The normalized bundle (`AARCCollection`) returned by
`normalize_data`: one member table per entity/relationship. -/
structure AARCCollection : Type where
  persons : Table
  institutions : Table
  departments : Table
  taxonomies : Table
  department_taxonomies : Table
  appointments : Table
  umbrellas : Table
deriving DecidableEq, Repr

/-- Modelled from the spec where the notebook leaves gaps: the
normalizer `normalize(flatTable) -> NormalizedBundle`. It fails with
`MissingColumnError` if a required source column is absent; otherwise
it builds each entity table by `groupby(primary key).aggregate("first")`
and each relationship table by
`groupby(compound key, dropna=False).aggregate("first")`, exactly the
snippets the notebook documents for `persons` and `appointments`, plus
synthesized umbrella ids. (`data_norm_class.normalization` itself is
not in the repository snapshot; only its documented snippets are.) -/
def normalize_data (df : Table) :
    Except MissingColumnError AARCCollection :=
  match colsRequired.find? (fun c => !(df.cols.contains c)) with
  | some c => .error ⟨c⟩
  | none => .ok
    { persons := df.groupbyAgg ["PersonId"]
        ["Gender", "DegreeYear", "PersonName", "DegreeInstitutionId"] true,
      institutions := df.groupbyAgg ["InstitutionId"] ["InstitutionName"] true,
      departments := df.groupbyAgg ["DepartmentId"] ["DepartmentName"] true,
      taxonomies := df.groupbyAgg ["TaxonomyId"]
        ["Area", "Field", "Umbrella"] true,
      department_taxonomies := df.groupbyAgg
        ["DepartmentId", "TaxonomyId"] [] false,
      appointments := df.groupbyAgg
        ["PersonId", "Year", "DepartmentId", "InstitutionId"]
        ["Rank", "PrimaryAppointment"] false,
      umbrellas := mkUmbrellas df }

/-- The compound key columns of the `appointments` relationship table,
in the order of the notebook's documented groupby. -/
def appKeyCols : List String :=
  ["PersonId", "Year", "DepartmentId", "InstitutionId"]

/-- The compound key columns of the `department_taxonomies`
relationship table. -/
def dtKeyCols : List String := ["DepartmentId", "TaxonomyId"]

/-- The primary key of table `t` is its first `nk` columns; `keysOf`
lists the key tuple of every row. -/
def Table.keysOf (t : Table) (nk : Nat) : List (List Cell) :=
  t.rows.map (fun r => r.take nk)

/-- The primary key (first `nk` columns) takes no duplicate tuple. -/
def Table.pkUnique (t : Table) (nk : Nat) : Prop :=
  (t.keysOf nk).Nodup

instance (t : Table) (nk : Nat) : Decidable (t.pkUnique nk) :=
  inferInstanceAs (Decidable (List.Nodup _))

/-- No cell of the primary key (first `nk` columns) is null. -/
def Table.pkNonNull (t : Table) (nk : Nat) : Prop :=
  ∀ r ∈ t.rows, ∀ c ∈ r.take nk, c ≠ none

instance (t : Table) (nk : Nat) : Decidable (t.pkNonNull nk) :=
  List.decidableBAll _ _

/-- All rows of `df` agreeing on the key tuple under `keys` also agree
on every attribute in `attrs` (the functional-dependency assumption the
`"first"` aggregation silently trusts). -/
def groupsAgree (df : Table) (keys attrs : List String) : Prop :=
  ∀ r1 ∈ df.rows, ∀ r2 ∈ df.rows,
    rowKey df.cols keys r1 = rowKey df.cols keys r2 →
    ∀ a ∈ attrs, getCell df.cols r1 a = getCell df.cols r2 a

instance (df : Table) (keys attrs : List String) :
    Decidable (groupsAgree df keys attrs) :=
  List.decidableBAll _ _

/-- The functional-dependency assumption for every table
`normalize_data` builds by aggregation. -/
def fdAssumption (df : Table) : Prop :=
  groupsAgree df ["PersonId"]
    ["Gender", "DegreeYear", "PersonName", "DegreeInstitutionId"] ∧
  groupsAgree df ["InstitutionId"] ["InstitutionName"] ∧
  groupsAgree df ["DepartmentId"] ["DepartmentName"] ∧
  groupsAgree df ["TaxonomyId"] ["Area", "Field", "Umbrella"] ∧
  groupsAgree df appKeyCols ["Rank", "PrimaryAppointment"]

instance (df : Table) : Decidable (fdAssumption df) :=
  inferInstanceAs (Decidable (_ ∧ _))

/-- The entity-key columns of `df` contain no null. -/
def keysNonNull (df : Table) : Prop :=
  ∀ r ∈ df.rows,
    ∀ c ∈ ["PersonId", "DepartmentId", "InstitutionId", "Year",
           "TaxonomyId"],
      getCell df.cols r c ≠ none

instance (df : Table) : Decidable (keysNonNull df) :=
  List.decidableBAll _ _

/-- The flat table is closed under recombining its appointment part and
its department↔taxonomy part: whenever two input rows mention the same
department, some input row carries the appointment key of the first
together with the (department, taxonomy) pair of the second. The flat
AARC file has this shape by construction (each hiring is replicated
across all taxonomy assignments of its department). -/
def joinComplete (df : Table) : Prop :=
  ∀ r1 ∈ df.rows, ∀ r2 ∈ df.rows,
    getCell df.cols r1 "DepartmentId" = getCell df.cols r2 "DepartmentId" →
    ∃ r3 ∈ df.rows,
      rowKey df.cols appKeyCols r3 = rowKey df.cols appKeyCols r1 ∧
      rowKey df.cols dtKeyCols r3 = rowKey df.cols dtKeyCols r2

instance (df : Table) : Decidable (joinComplete df) :=
  List.decidableBAll _ _

/-- Find the row of `t` whose key tuple (first `nk` cells) is `k`
(pandas `.join` matching a foreign key against the index of `t`). -/
def Table.lookupRow (t : Table) (nk : Nat) (k : List Cell) :
    Option (List Cell) :=
  t.rows.find? (fun r => r.take nk = k)

/-- The attribute cells joined in from `t` for key `k`: its matching
row beyond the key, or `nattrs` nulls when the key is unmatched (the
left-join fill the notebook demonstrates). -/
def Table.attrsFor (t : Table) (nk nattrs : Nat) (k : List Cell) :
    List Cell :=
  match t.lookupRow nk k with
  | some r => (r.drop nk).take nattrs
  | none => List.replicate nattrs none

/-- Modelled from the notebook's join cells: a pandas left join
`l.join(r, on=l.cols[onIdx], how="left")`, matching column `onIdx` of
`l` against the (single-column) index of `r` and appending the `rAttrs`
attribute columns of `r`, nulls where the key is unmatched. -/
def Table.joinLeft (l r : Table) (onIdx : Nat) (rAttrs : Nat) : Table :=
  { cols := l.cols ++ r.cols.drop 1,
    rows := l.rows.map (fun lr => lr ++ r.attrsFor 1 rAttrs [lr.getD onIdx none]) }

/-- Modelled from the spec: one row of the full re-join, built from an
`appointments` row `ra` and a matching `department_taxonomies` row `rt`
by joining in the entity attributes on each declared key, projected
onto the original flat column set in `colsRequired` order. -/
def rejoinRow (b : AARCCollection) (ra rt : List Cell) : List Cell :=
  let pa := b.persons.attrsFor 1 4 [ra.getD 0 none]
  let ia := b.institutions.attrsFor 1 1 [ra.getD 3 none]
  let da := b.departments.attrsFor 1 1 [ra.getD 2 none]
  let ta := b.taxonomies.attrsFor 1 3 [rt.getD 1 none]
  [ra.getD 0 none, ra.getD 2 none, ra.getD 3 none, ra.getD 1 none,
   rt.getD 1 none,
   pa.getD 2 none, pa.getD 0 none, pa.getD 1 none, pa.getD 3 none,
   da.getD 0 none, ia.getD 0 none,
   ta.getD 0 none, ta.getD 1 none, ta.getD 2 none,
   ra.getD 4 none, ra.getD 5 none]

/-- Modelled from the spec: re-joining all normalized tables on their
declared keys — `appointments` with `department_taxonomies` on
`DepartmentId`, then each entity table on its key — projected onto the
original flat column set. -/
def rejoin (b : AARCCollection) : Table :=
  { cols := colsRequired,
    rows := b.appointments.rows.flatMap (fun ra =>
      (b.department_taxonomies.rows.filter
        (fun rt => rt.getD 0 none = ra.getD 2 none)).map (rejoinRow b ra)) }

/-- Modelled from the spec: the observable effect of calling the
normalizer is its return value and the caller's input table as the call
leaves it; `normalize_data` has no side effect on the input. -/
def normalize_data_call (df : Table) :
    Except MissingColumnError AARCCollection × Table :=
  (normalize_data df, df)

/-- Shorthand constructors for concrete test tables. -/
def vi (n : Int) : Cell := some (Val.i n)

def vs (t : String) : Cell := some (Val.s t)

def vb (x : Bool) : Cell := some (Val.b x)

/-- A flat-table row with the sixteen required columns in
`colsRequired` order. -/
def mkRow (p d i y t pn g dy di dn inn ar f u rk pa : Cell) : List Cell :=
  [p, d, i, y, t, pn, g, dy, di, dn, inn, ar, f, u, rk, pa]

/-- The empty table. -/
def emptyTable : Table := { cols := [], rows := [] }

/-- The empty bundle (placeholder for impossible match arms). -/
def emptyBundle : AARCCollection :=
  { persons := emptyTable, institutions := emptyTable,
    departments := emptyTable, taxonomies := emptyTable,
    department_taxonomies := emptyTable, appointments := emptyTable,
    umbrellas := emptyTable }

/-- A small flat input: three departments, two institutions, a repeated
flat row, and one row whose `TaxonomyId` is null. -/
def exFlat : Table :=
  { cols := colsRequired,
    rows := [
      mkRow (vi 2) (vi 1) (vi 10) (vi 2001) (vi 101) (vs "Bob") (vs "M")
        (vi 1990) (vi 10) (vs "CS") (vs "MIT") (vs "A") (vs "F1") (vs "U1")
        (vs "Asst") (vb true),
      mkRow (vi 1) (vi 1) (vi 10) (vi 2000) (vi 101) (vs "Alice") (vs "F")
        (vi 1991) (vi 11) (vs "CS") (vs "MIT") (vs "A") (vs "F1") (vs "U1")
        (vs "Full") (vb true),
      mkRow (vi 1) (vi 1) (vi 10) (vi 2000) (vi 101) (vs "Alice") (vs "F")
        (vi 1991) (vi 11) (vs "CS") (vs "MIT") (vs "A") (vs "F1") (vs "U1")
        (vs "Full") (vb true),
      mkRow (vi 1) (vi 2) (vi 11) (vi 2002) (vi 102) (vs "Alice") (vs "F")
        (vi 1991) (vi 11) (vs "Bio") (vs "H") (vs "B") (vs "F2") (vs "U2")
        (vs "Full") (vb false),
      mkRow (vi 3) (vi 3) none (vi 2003) none (vs "Cleo") (vs "F")
        (vi 1992) (vi 10) (vs "Phys") (vs "MIT") (vs "C") (vs "F3") (vs "U1")
        (vs "Asst") (vb true)
    ] }

/-- The bundle `normalize_data` returns on `exFlat`. -/
def exFlatB : AARCCollection :=
  match normalize_data exFlat with
  | .ok b => b
  | .error _ => emptyBundle

/-- The spec's synthetic example: three departments, two institutions,
and a repeated (department, taxonomy) pair, all columns non-null. -/
def exFlat3 : Table :=
  { cols := colsRequired,
    rows := [
      mkRow (vi 1) (vi 1) (vi 10) (vi 2000) (vi 101) (vs "Ada") (vs "F")
        (vi 1990) (vi 10) (vs "CS") (vs "MIT") (vs "A") (vs "F1") (vs "U1")
        (vs "Full") (vb true),
      mkRow (vi 1) (vi 1) (vi 10) (vi 2001) (vi 101) (vs "Ada") (vs "F")
        (vi 1990) (vi 10) (vs "CS") (vs "MIT") (vs "A") (vs "F1") (vs "U1")
        (vs "Full") (vb true),
      mkRow (vi 2) (vi 2) (vi 10) (vi 2001) (vi 101) (vs "Ben") (vs "M")
        (vi 1991) (vi 11) (vs "Math") (vs "MIT") (vs "A") (vs "F1") (vs "U1")
        (vs "Asst") (vb true),
      mkRow (vi 3) (vi 3) (vi 11) (vi 2002) (vi 102) (vs "Cam") (vs "M")
        (vi 1992) (vi 10) (vs "Bio") (vs "H") (vs "B") (vs "F2") (vs "U2")
        (vs "Asst") (vb false)
    ] }

/-- The bundle `normalize_data` returns on `exFlat3`. -/
def exFlat3B : AARCCollection :=
  match normalize_data exFlat3 with
  | .ok b => b
  | .error _ => emptyBundle

/-- Two rows sharing a department but with different persons and
taxonomies: every group is attribute-consistent, yet the flat table is
not the cross-combination of its appointment and taxonomy parts. -/
def exCross : Table :=
  { cols := colsRequired,
    rows := [
      mkRow (vi 1) (vi 1) (vi 10) (vi 2000) (vi 101) (vs "Ada") (vs "F")
        (vi 1990) (vi 10) (vs "CS") (vs "MIT") (vs "A") (vs "F1") (vs "U1")
        (vs "Full") (vb true),
      mkRow (vi 2) (vi 1) (vi 10) (vi 2001) (vi 102) (vs "Ben") (vs "M")
        (vi 1991) (vi 11) (vs "CS") (vs "MIT") (vs "B") (vs "F2") (vs "U2")
        (vs "Asst") (vb true)
    ] }

/-- The bundle `normalize_data` returns on `exCross`. -/
def exCrossB : AARCCollection :=
  match normalize_data exCross with
  | .ok b => b
  | .error _ => emptyBundle

/-- Position of the first occurrence of `a` in `l` (length of `l` when
absent): used to express first-seen enumeration order. -/
def firstIdx {α : Type} [DecidableEq α] : List α → α → Nat
  | [], _ => 0
  | b :: t, a => if b = a then 0 else firstIdx t a + 1

/-- Every row of `t` has one cell per column. -/
def Table.aligned (t : Table) : Prop :=
  ∀ r ∈ t.rows, r.length = t.cols.length

instance (t : Table) : Decidable t.aligned :=
  List.decidableBAll _ _

/-- The table `t` is, groupwise, the `"first"` aggregation of `df` by
`keys`: in every row of `t`, the cell of the `i`-th attribute column is
the first non-null occurrence of that attribute among the input rows of
the row's group, taken in original input row order. -/
def aggFirstSpec (df t : Table) (keys attrs : List String) : Prop :=
  ∀ r ∈ t.rows, ∀ i, i < attrs.length →
    r.getD (keys.length + i) none =
      firstNonNull ((groupRows df keys (r.take keys.length)).map
        (fun x => getCell df.cols x (attrs.getD i "")))

/-- Primary keys of the bundle as the code actually guarantees them:
every table's key tuples are duplicate-free; the entity tables (whose
groupby drops null keys) and the synthesized umbrella table have
non-null keys; and each relationship table holds exactly one row per
distinct key tuple occurring in the input (nullable foreign-key
components included), with the entity tables enumerating exactly the
distinct non-null input key values. -/
def pkInvariant (df : Table) (b : AARCCollection) : Prop :=
  (b.persons.pkUnique 1 ∧ b.persons.pkNonNull 1) ∧
  (b.institutions.pkUnique 1 ∧ b.institutions.pkNonNull 1) ∧
  (b.departments.pkUnique 1 ∧ b.departments.pkNonNull 1) ∧
  (b.taxonomies.pkUnique 1 ∧ b.taxonomies.pkNonNull 1) ∧
  (b.umbrellas.pkUnique 1 ∧ b.umbrellas.pkNonNull 1) ∧
  b.department_taxonomies.pkUnique 2 ∧
  b.appointments.pkUnique 4 ∧
  (∀ k, k ∈ b.department_taxonomies.keysOf 2 ↔
    k ∈ df.rows.map (rowKey df.cols dtKeyCols)) ∧
  (∀ k, k ∈ b.appointments.keysOf 4 ↔
    k ∈ df.rows.map (rowKey df.cols appKeyCols)) ∧
  (∀ k, k ∈ b.departments.keysOf 1 ↔
    k ∈ (df.rows.map (rowKey df.cols ["DepartmentId"])).filter
      (fun k => !(k.any (fun c => c.isNone))))

/-- Referential integrity of the bundle: every foreign key value of a
relationship table is null or occurs as a primary key of the referenced
entity table. -/
def refIntegrity (b : AARCCollection) : Prop :=
  (∀ r ∈ b.appointments.rows,
    (r.getD 0 none = none ∨ [r.getD 0 none] ∈ b.persons.keysOf 1) ∧
    (r.getD 2 none = none ∨ [r.getD 2 none] ∈ b.departments.keysOf 1) ∧
    (r.getD 3 none = none ∨ [r.getD 3 none] ∈ b.institutions.keysOf 1)) ∧
  (∀ r ∈ b.department_taxonomies.rows,
    (r.getD 0 none = none ∨ [r.getD 0 none] ∈ b.departments.keysOf 1) ∧
    (r.getD 1 none = none ∨ [r.getD 1 none] ∈ b.taxonomies.keysOf 1))

/-- Every table of the bundle is emitted with its rows in ascending
primary-key order. -/
def bundleSorted (b : AARCCollection) : Prop :=
  List.Sorted keyLe (b.persons.keysOf 1) ∧
  List.Sorted keyLe (b.institutions.keysOf 1) ∧
  List.Sorted keyLe (b.departments.keysOf 1) ∧
  List.Sorted keyLe (b.taxonomies.keysOf 1) ∧
  List.Sorted keyLe (b.department_taxonomies.keysOf 2) ∧
  List.Sorted keyLe (b.appointments.keysOf 4) ∧
  List.Sorted keyLe (b.umbrellas.keysOf 1)

/-! ### Order lemmas for the group-key sort -/

theorem valLe_total : ∀ a b : Val, Val.le a b ∨ Val.le b a
  | .i m, .i n => le_total m n
  | .i _, .s _ => Or.inl trivial
  | .i _, .b _ => Or.inl trivial
  | .s _, .i _ => Or.inr trivial
  | .s a, .s b => le_total a b
  | .s _, .b _ => Or.inl trivial
  | .b _, .i _ => Or.inr trivial
  | .b _, .s _ => Or.inr trivial
  | .b x, .b y => le_total x y

theorem valLe_trans : ∀ a b c : Val, Val.le a b → Val.le b c → Val.le a c
  | .i _, .i _, .i _, h1, h2 => le_trans h1 h2
  | .s _, .s _, .s _, h1, h2 => le_trans h1 h2
  | .b _, .b _, .b _, h1, h2 => le_trans h1 h2
  | .i _, _, .s _, _, _ => trivial
  | .i _, _, .b _, _, _ => trivial
  | .s _, _, .b _, _, _ => trivial
  | .i _, .s _, .i _, _, h2 => absurd h2 id
  | .i _, .b _, .i _, _, h2 => absurd h2 id
  | .s _, .i _, _, h1, _ => absurd h1 id
  | .s _, .s _, .i _, _, h2 => absurd h2 id
  | .s _, .b _, .i _, _, h2 => absurd h2 id
  | .s _, .b _, .s _, _, h2 => absurd h2 id
  | .b _, .i _, _, h1, _ => absurd h1 id
  | .b _, .s _, _, h1, _ => absurd h1 id
  | .b _, .b _, .i _, _, h2 => absurd h2 id
  | .b _, .b _, .s _, _, h2 => absurd h2 id

theorem valLe_antisymm : ∀ a b : Val, Val.le a b → Val.le b a → a = b
  | .i _, .i _, h1, h2 => by rw [le_antisymm h1 h2]
  | .s _, .s _, h1, h2 => by rw [le_antisymm h1 h2]
  | .b _, .b _, h1, h2 => by rw [le_antisymm h1 h2]
  | .i _, .s _, _, h2 => absurd h2 id
  | .i _, .b _, _, h2 => absurd h2 id
  | .s _, .b _, _, h2 => absurd h2 id
  | .s _, .i _, h1, _ => absurd h1 id
  | .b _, .i _, h1, _ => absurd h1 id
  | .b _, .s _, h1, _ => absurd h1 id

theorem cellLe_none : ∀ a : Cell, Cell.le a none
  | none => trivial
  | some _ => trivial

theorem cellLe_total : ∀ a b : Cell, Cell.le a b ∨ Cell.le b a
  | a, none => Or.inl (cellLe_none a)
  | none, some _ => Or.inr trivial
  | some a, some b => valLe_total a b

theorem cellLe_trans : ∀ a b c : Cell, Cell.le a b → Cell.le b c → Cell.le a c
  | a, _, none, _, _ => cellLe_none a
  | none, some _, _, h1, _ => absurd h1 id
  | some _, none, some _, _, h2 => absurd h2 id
  | some a, some b, some c, h1, h2 => valLe_trans a b c h1 h2

theorem cellLe_antisymm : ∀ a b : Cell, Cell.le a b → Cell.le b a → a = b
  | none, none, _, _ => rfl
  | none, some _, h1, _ => absurd h1 id
  | some _, none, _, h2 => absurd h2 id
  | some a, some b, h1, h2 => by rw [valLe_antisymm a b h1 h2]

theorem keyLe_total : ∀ k l : List Cell, keyLe k l ∨ keyLe l k
  | [], _ => Or.inl trivial
  | _ :: _, [] => Or.inr trivial
  | a :: as, b :: bs => by
    by_cases hab : a = b
    · subst hab
      simp only [keyLe, if_pos rfl]
      exact keyLe_total as bs
    · simp only [keyLe, if_neg hab, if_neg (Ne.symm hab)]
      exact cellLe_total a b

theorem keyLe_trans :
    ∀ k l m : List Cell, keyLe k l → keyLe l m → keyLe k m
  | [], _, _, _, _ => trivial
  | _ :: _, [], _, h1, _ => absurd h1 id
  | _ :: _, _ :: _, [], _, h2 => absurd h2 id
  | a :: as, b :: bs, c :: cs, h1, h2 => by
    simp only [keyLe] at h1 h2 ⊢
    by_cases hab : a = b <;> by_cases hbc : b = c
    · subst hab; subst hbc
      simp only [if_pos rfl] at h1 h2 ⊢
      exact keyLe_trans as bs cs h1 h2
    · subst hab
      simp only [if_pos rfl, if_neg hbc] at h1 h2 ⊢
      exact h2
    · subst hbc
      simp only [if_pos rfl, if_neg hab] at h1 h2 ⊢
      exact h1
    · simp only [if_neg hab, if_neg hbc] at h1 h2
      by_cases hac : a = c
      · subst hac
        exact absurd (cellLe_antisymm a b h1 h2) hab
      · simp only [if_neg hac]
        exact cellLe_trans a b c h1 h2

instance : IsTotal (List Cell) keyLe := ⟨keyLe_total⟩

instance : IsTrans (List Cell) keyLe := ⟨keyLe_trans⟩

/-! ### First-seen deduplication -/

theorem dedupFirstAux_eq {α : Type} [DecidableEq α] :
    ∀ (l seen : List α),
      dedupFirstAux seen l = dedupFirstRec (l.filter (fun x => x ∉ seen))
  | [], seen => by rw [dedupFirstAux, List.filter_nil, dedupFirstRec]
  | a :: as, seen => by
    rw [dedupFirstAux]
    by_cases ha : a ∈ seen
    · rw [if_pos ha, List.filter_cons_of_neg (by simpa using ha)]
      exact dedupFirstAux_eq as seen
    · rw [if_neg ha, List.filter_cons_of_pos (by simpa using ha),
        dedupFirstRec]
      congr 1
      rw [dedupFirstAux_eq as (a :: seen), List.filter_filter]
      congr 1
      apply List.filter_congr
      intro x _
      by_cases hxa : x = a <;> by_cases hxs : x ∈ seen <;>
        simp [hxa, hxs, List.mem_cons]

theorem dedupFirst_eq_rec {α : Type} [DecidableEq α] (l : List α) :
    dedupFirst l = dedupFirstRec l := by
  rw [dedupFirst, dedupFirstAux_eq]
  congr 1
  rw [List.filter_eq_self]
  intro a _
  simp

theorem mem_dedupFirstRec {α : Type} [DecidableEq α] :
    ∀ (l : List α) (a : α), a ∈ dedupFirstRec l ↔ a ∈ l
  | [], a => by rw [dedupFirstRec]
  | b :: bs, a => by
    rw [dedupFirstRec]
    simp only [List.mem_cons]
    constructor
    · rintro (rfl | h)
      · exact Or.inl rfl
      · exact Or.inr (List.mem_of_mem_filter
          ((mem_dedupFirstRec (bs.filter (fun x => x ≠ b)) a).mp h))
    · rintro (rfl | h)
      · exact Or.inl rfl
      · by_cases hab : a = b
        · exact Or.inl hab
        · refine Or.inr ?_
          rw [mem_dedupFirstRec (bs.filter (fun x => x ≠ b)) a]
          exact List.mem_filter.mpr ⟨h, by simpa using hab⟩
termination_by l => l.length
decreasing_by
  all_goals simp only [List.length_cons]
  all_goals exact Nat.lt_succ_of_le (List.length_filter_le _ _)

theorem mem_dedupFirst {α : Type} [DecidableEq α] (l : List α) (a : α) :
    a ∈ dedupFirst l ↔ a ∈ l := by
  rw [dedupFirst_eq_rec]
  exact mem_dedupFirstRec l a

theorem nodup_dedupFirstRec {α : Type} [DecidableEq α] :
    ∀ l : List α, (dedupFirstRec l).Nodup
  | [] => by rw [dedupFirstRec]; exact List.nodup_nil
  | b :: bs => by
    rw [dedupFirstRec]
    refine List.nodup_cons.mpr
      ⟨?_, nodup_dedupFirstRec (bs.filter (fun x => x ≠ b))⟩
    intro hmem
    have := List.of_mem_filter ((mem_dedupFirstRec _ b).mp hmem)
    simp at this
termination_by l => l.length
decreasing_by
  all_goals simp only [List.length_cons]
  all_goals exact Nat.lt_succ_of_le (List.length_filter_le _ _)

theorem nodup_dedupFirst {α : Type} [DecidableEq α] (l : List α) :
    (dedupFirst l).Nodup := by
  rw [dedupFirst_eq_rec]
  exact nodup_dedupFirstRec l

/-! ### Structure of one groupby-aggregate step -/

theorem rowKey_length (cols keys : List String) (r : List Cell) :
    (rowKey cols keys r).length = keys.length :=
  List.length_map _ _

theorem aggRow_take (df : Table) (keys attrs : List String) (k : List Cell)
    (hk : k.length = keys.length) :
    (aggRow df keys attrs k).take keys.length = k := by
  rw [aggRow, ← hk, List.take_left]

theorem aggRow_getD_attr (df : Table) (keys attrs : List String)
    (k : List Cell) (hk : k.length = keys.length) (i : Nat)
    (hi : i < attrs.length) :
    (aggRow df keys attrs k).getD (keys.length + i) none =
      firstNonNull ((groupRows df keys k).map
        (fun r => getCell df.cols r (attrs.getD i ""))) := by
  rw [aggRow, ← hk,
    List.getD_append_right _ _ _ _ (Nat.le_add_right _ _),
    Nat.add_sub_cancel_left]
  simp only [List.getD_eq_getElem?_getD, List.getElem?_map,
    List.getElem?_eq_getElem hi, Option.map_some', Option.getD_some]

theorem mem_keptKeys_iff (df : Table) (keys : List String) (dn : Bool)
    (k : List Cell) :
    k ∈ keptKeys df keys dn ↔
      (∃ r ∈ df.rows, rowKey df.cols keys r = k) ∧
      (dn = true → ∀ c ∈ k, c ≠ none) := by
  cases dn with
  | false =>
    show k ∈ df.rows.map (rowKey df.cols keys) ↔ _
    simp only [List.mem_map, Bool.false_eq_true, false_implies, and_true]
  | true =>
    show k ∈ (df.rows.map (rowKey df.cols keys)).filter
      (fun k => !(k.any (fun c => c.isNone))) ↔ _
    rw [List.mem_filter, List.mem_map]
    refine and_congr_right fun _ => ?_
    constructor
    · rintro hb - c hc
      rw [Bool.not_eq_true', List.any_eq_false] at hb
      intro hceq
      have hcb := hb c hc
      rw [hceq] at hcb
      simp at hcb
    · intro hnn
      rw [Bool.not_eq_true', List.any_eq_false]
      intro c hc
      cases c with
      | none => exact absurd rfl (hnn rfl none hc)
      | some v => simp

theorem keptKeys_length {df : Table} {keys : List String} {dn : Bool}
    {k : List Cell} (h : k ∈ keptKeys df keys dn) :
    k.length = keys.length := by
  obtain ⟨⟨r, _, hr⟩, -⟩ := (mem_keptKeys_iff df keys dn k).mp h
  rw [← hr, rowKey_length]

theorem mem_groupby_rows (df : Table) (keys attrs : List String) (dn : Bool)
    (r : List Cell) :
    r ∈ (df.groupbyAgg keys attrs dn).rows ↔
      ∃ k ∈ keptKeys df keys dn, r = aggRow df keys attrs k := by
  simp only [Table.groupbyAgg, List.mem_map]
  constructor
  · rintro ⟨k, hk, rfl⟩
    have hk2 : k ∈ dedupFirst (keptKeys df keys dn) :=
      (List.perm_insertionSort keyLe _).mem_iff.mp hk
    exact ⟨k, (mem_dedupFirst _ k).mp hk2, rfl⟩
  · rintro ⟨k, hk, rfl⟩
    refine ⟨k, ?_, rfl⟩
    exact (List.perm_insertionSort keyLe _).mem_iff.mpr
      ((mem_dedupFirst _ k).mpr hk)

theorem keysOf_groupby (df : Table) (keys attrs : List String) (dn : Bool) :
    (df.groupbyAgg keys attrs dn).keysOf keys.length =
      List.insertionSort keyLe (dedupFirst (keptKeys df keys dn)) := by
  rw [Table.keysOf, Table.groupbyAgg, List.map_map]
  have : ∀ k ∈ List.insertionSort keyLe (dedupFirst (keptKeys df keys dn)),
      ((fun r => r.take keys.length) ∘ aggRow df keys attrs) k = id k := by
    intro k hk
    have hmem : k ∈ keptKeys df keys dn := (mem_dedupFirst _ k).mp
      ((List.perm_insertionSort keyLe _).mem_iff.mp hk)
    exact aggRow_take df keys attrs k (keptKeys_length hmem)
  rw [List.map_congr_left this, List.map_id]

theorem pkUnique_groupby (df : Table) (keys attrs : List String) (dn : Bool) :
    (df.groupbyAgg keys attrs dn).pkUnique keys.length := by
  rw [Table.pkUnique, keysOf_groupby]
  exact (List.perm_insertionSort keyLe _).nodup_iff.mpr
    (nodup_dedupFirst _)

theorem sorted_keysOf_groupby (df : Table) (keys attrs : List String)
    (dn : Bool) :
    List.Sorted keyLe ((df.groupbyAgg keys attrs dn).keysOf keys.length) := by
  rw [keysOf_groupby]
  exact List.sorted_insertionSort keyLe _

theorem pkNonNull_groupby (df : Table) (keys attrs : List String) :
    (df.groupbyAgg keys attrs true).pkNonNull keys.length := by
  intro r hr c hc
  obtain ⟨k, hk, rfl⟩ := (mem_groupby_rows df keys attrs true r).mp hr
  rw [aggRow_take df keys attrs k (keptKeys_length hk)] at hc
  obtain ⟨-, hnn⟩ := (mem_keptKeys_iff df keys true k).mp hk
  exact hnn rfl c hc

theorem mem_keysOf_groupby (df : Table) (keys attrs : List String)
    (dn : Bool) (k : List Cell) :
    k ∈ (df.groupbyAgg keys attrs dn).keysOf keys.length ↔
      k ∈ keptKeys df keys dn := by
  rw [keysOf_groupby]
  rw [(List.perm_insertionSort keyLe _).mem_iff]
  exact mem_dedupFirst _ k

/-! ### Dispatch of `normalize_data` -/

theorem normalize_data_ok_elim {df : Table} {b : AARCCollection}
    (h : normalize_data df = Except.ok b) :
    b.persons = df.groupbyAgg ["PersonId"]
      ["Gender", "DegreeYear", "PersonName", "DegreeInstitutionId"] true ∧
    b.institutions = df.groupbyAgg ["InstitutionId"] ["InstitutionName"]
      true ∧
    b.departments = df.groupbyAgg ["DepartmentId"] ["DepartmentName"] true ∧
    b.taxonomies = df.groupbyAgg ["TaxonomyId"] ["Area", "Field", "Umbrella"]
      true ∧
    b.department_taxonomies = df.groupbyAgg ["DepartmentId", "TaxonomyId"]
      [] false ∧
    b.appointments = df.groupbyAgg
      ["PersonId", "Year", "DepartmentId", "InstitutionId"]
      ["Rank", "PrimaryAppointment"] false ∧
    b.umbrellas = mkUmbrellas df := by
  rw [normalize_data] at h
  cases hfind : colsRequired.find? (fun c => !(df.cols.contains c)) with
  | some c => rw [hfind] at h; cases h
  | none =>
    rw [hfind] at h
    injection h with h2
    subst h2
    exact ⟨rfl, rfl, rfl, rfl, rfl, rfl, rfl⟩

theorem normalize_data_ok_of_cols {df : Table}
    (h : ∀ c ∈ colsRequired, c ∈ df.cols) :
    ∃ b, normalize_data df = Except.ok b := by
  rw [normalize_data]
  have hfind : colsRequired.find? (fun c => !(df.cols.contains c)) = none := by
    rw [List.find?_eq_none]
    intro c hc
    simp only [Bool.not_eq_true', Bool.not_eq_false]
    exact List.elem_iff.mpr (h c hc)
  rw [hfind]
  exact ⟨_, rfl⟩

theorem normalize_data_error_elim {df : Table} {e : MissingColumnError}
    (h : normalize_data df = Except.error e) :
    e.col ∈ colsRequired ∧ e.col ∉ df.cols := by
  rw [normalize_data] at h
  cases hfind : colsRequired.find? (fun c => !(df.cols.contains c)) with
  | none => rw [hfind] at h; cases h
  | some c =>
    rw [hfind] at h
    injection h with h2
    subst h2
    refine ⟨List.mem_of_find?_eq_some hfind, ?_⟩
    have := List.find?_some hfind
    simp only [Bool.not_eq_eq_eq_not, Bool.not_true] at this
    intro hmem
    have h3 : df.cols.contains c = true := List.elem_iff.mpr hmem
    rw [h3] at this
    simp at this

theorem normalize_data_error_of_missing {df : Table}
    (h : ¬ ∀ c ∈ colsRequired, c ∈ df.cols) :
    ∃ e, normalize_data df = Except.error e := by
  rw [normalize_data]
  cases hfind : colsRequired.find? (fun c => !(df.cols.contains c)) with
  | some c => exact ⟨⟨c⟩, rfl⟩
  | none =>
    exfalso
    apply h
    intro c hc
    have := List.find?_eq_none.mp hfind c hc
    simp only [Bool.not_eq_true', Bool.not_eq_false] at this
    exact List.elem_iff.mp this

/-! ### The `"first"` aggregation under the functional-dependency
assumption -/

theorem firstNonNull_all_eq :
    ∀ (l : List Cell) (v : Cell), l ≠ [] → (∀ c ∈ l, c = v) →
      firstNonNull l = v
  | [], _, hne, _ => absurd rfl hne
  | c :: cs, v, _, h => by
    have hc : c = v := h c (List.mem_cons_self _ _)
    subst hc
    cases c with
    | some w => rfl
    | none =>
      show firstNonNull cs = none
      cases cs with
      | nil => rfl
      | cons d ds =>
        exact firstNonNull_all_eq (d :: ds) none (by simp)
          (fun x hx => h x (List.mem_cons_of_mem _ hx))

theorem mem_groupRows_iff (df : Table) (keys : List String) (k : List Cell)
    (x : List Cell) :
    x ∈ groupRows df keys k ↔ x ∈ df.rows ∧ rowKey df.cols keys x = k := by
  rw [groupRows, List.mem_filter, decide_eq_true_eq]

theorem self_mem_groupRows (df : Table) (keys : List String)
    (r3 : List Cell) (hr3 : r3 ∈ df.rows) :
    r3 ∈ groupRows df keys (rowKey df.cols keys r3) :=
  (mem_groupRows_iff df keys _ r3).mpr ⟨hr3, rfl⟩

theorem firstNonNull_group_attr (df : Table) (keys attrs : List String)
    (hagree : groupsAgree df keys attrs) (r3 : List Cell)
    (hr3 : r3 ∈ df.rows) (a : String) (ha : a ∈ attrs) :
    firstNonNull ((groupRows df keys (rowKey df.cols keys r3)).map
      (fun x => getCell df.cols x a)) = getCell df.cols r3 a := by
  apply firstNonNull_all_eq
  · intro hcon
    have : getCell df.cols r3 a ∈
        (groupRows df keys (rowKey df.cols keys r3)).map
          (fun x => getCell df.cols x a) :=
      List.mem_map.mpr ⟨r3, self_mem_groupRows df keys r3 hr3, rfl⟩
    rw [hcon] at this
    cases this
  · intro c hc
    obtain ⟨x, hx, rfl⟩ := List.mem_map.mp hc
    obtain ⟨hxmem, hxkey⟩ := (mem_groupRows_iff df keys _ x).mp hx
    exact hagree x hxmem r3 hr3 hxkey a ha

/-! ### Key lookup into a groupby table -/

theorem lookupRow_groupby (df : Table) (keys attrs : List String)
    (dn : Bool) (k : List Cell) (hk : k ∈ keptKeys df keys dn) :
    (df.groupbyAgg keys attrs dn).lookupRow keys.length k =
      some (aggRow df keys attrs k) := by
  rw [Table.lookupRow]
  cases hfind : (df.groupbyAgg keys attrs dn).rows.find?
      (fun r => r.take keys.length = k) with
  | none =>
    exfalso
    have hmem : aggRow df keys attrs k ∈ (df.groupbyAgg keys attrs dn).rows :=
      (mem_groupby_rows df keys attrs dn _).mpr ⟨k, hk, rfl⟩
    have := List.find?_eq_none.mp hfind _ hmem
    rw [decide_eq_true_eq] at this
    exact this (aggRow_take df keys attrs k (keptKeys_length hk))
  | some y =>
    have hy := List.find?_some hfind
    have hymem := List.mem_of_find?_eq_some hfind
    obtain ⟨k2, hk2, rfl⟩ := (mem_groupby_rows df keys attrs dn y).mp hymem
    rw [decide_eq_true_eq, aggRow_take df keys attrs k2
      (keptKeys_length hk2)] at hy
    rw [hy]

theorem attrsFor_groupby (df : Table) (keys attrs : List String)
    (dn : Bool) (k : List Cell) (hk : k ∈ keptKeys df keys dn) :
    (df.groupbyAgg keys attrs dn).attrsFor keys.length attrs.length k =
      attrs.map (fun a =>
        firstNonNull ((groupRows df keys k).map
          (fun r => getCell df.cols r a))) := by
  rw [Table.attrsFor, lookupRow_groupby df keys attrs dn k hk]
  show ((aggRow df keys attrs k).drop keys.length).take attrs.length = _
  rw [aggRow, ← keptKeys_length hk, List.drop_left]
  rw [show attrs.length = (attrs.map (fun a =>
    firstNonNull ((groupRows df keys k).map
      (fun r => getCell df.cols r a)))).length from
    (List.length_map _ _).symm]
  exact List.take_length _

theorem attrsFor_groupby_agree (df : Table) (keys attrs : List String)
    (dn : Bool) (hagree : groupsAgree df keys attrs) (r3 : List Cell)
    (hr3 : r3 ∈ df.rows) (hk : rowKey df.cols keys r3 ∈ keptKeys df keys dn) :
    (df.groupbyAgg keys attrs dn).attrsFor keys.length attrs.length
        (rowKey df.cols keys r3) =
      attrs.map (fun a => getCell df.cols r3 a) := by
  rw [attrsFor_groupby df keys attrs dn _ hk]
  exact List.map_congr_left (fun a ha =>
    firstNonNull_group_attr df keys attrs hagree r3 hr3 a ha)

/-! ### Row reconstruction from the original column set -/

theorem map_getD_range :
    ∀ (r : List Cell) (n : Nat), r.length = n →
      (List.range n).map (fun j => r.getD j none) = r
  | [], n, h => by subst h; rfl
  | a :: t, n, h => by
    subst h
    rw [List.length_cons, List.range_succ_eq_map, List.map_cons,
      List.map_map]
    show a :: _ = _
    congr 1
    exact map_getD_range t t.length rfl

theorem colsRequired_map_getCell (r : List Cell) :
    colsRequired.map (getCell colsRequired r) =
      (List.range 16).map (fun j => r.getD j none) := rfl

theorem row_eq_map_getCell {df : Table} (hcols : df.cols = colsRequired)
    (halign : df.aligned) {r : List Cell} (hr : r ∈ df.rows) :
    colsRequired.map (getCell df.cols r) = r := by
  rw [hcols, colsRequired_map_getCell]
  apply map_getD_range
  have := halign r hr
  rw [hcols] at this
  exact this

/-! ### Synthesized umbrella identifiers -/

theorem umbrellas_rows_length (df : Table) :
    (mkUmbrellas df).rows.length = (umbrellaVals df).length := by
  rw [mkUmbrellas]
  simp

theorem umbrellas_rows_getD (df : Table) (j : Nat)
    (hj : j < (umbrellaVals df).length) :
    (mkUmbrellas df).rows.getD j [] =
      [some (Val.i (Int.ofNat j)), (umbrellaVals df).getD j none] := by
  rw [mkUmbrellas]
  rw [List.getD_eq_getElem _ _ (by simpa using hj)]
  rw [List.getElem_map, List.getElem_range]

theorem umbrellas_keysOf (df : Table) :
    (mkUmbrellas df).keysOf 1 =
      (List.range (umbrellaVals df).length).map
        (fun j => [some (Val.i (Int.ofNat j))]) := by
  rw [Table.keysOf, mkUmbrellas, List.map_map]
  rfl

theorem pkUnique_umbrellas (df : Table) : (mkUmbrellas df).pkUnique 1 := by
  rw [Table.pkUnique, umbrellas_keysOf]
  refine List.Nodup.map ?_ (List.nodup_range _)
  intro j1 j2 h
  simpa using h

theorem pkNonNull_umbrellas (df : Table) : (mkUmbrellas df).pkNonNull 1 := by
  intro r hr c hc
  rw [mkUmbrellas] at hr
  obtain ⟨j, hj, rfl⟩ := List.mem_map.mp hr
  have hc2 : c = some (Val.i (Int.ofNat j)) := by simpa using hc
  subst hc2
  simp

theorem sorted_umbrellas_keysOf (df : Table) :
    List.Sorted keyLe ((mkUmbrellas df).keysOf 1) := by
  rw [umbrellas_keysOf]
  refine List.Pairwise.map _ ?_ (List.pairwise_lt_range _)
  intro a b hab
  show keyLe _ _
  by_cases h : (some (Val.i (Int.ofNat a)) : Cell) = some (Val.i (Int.ofNat b))
  · simp only [keyLe, if_pos h]
  · simp only [keyLe, if_neg h]
    exact (Int.ofNat_le.mpr (Nat.le_of_lt hab) :
      (Int.ofNat a : Int) ≤ Int.ofNat b)

theorem umbrellaVals_nodup (df : Table) : (umbrellaVals df).Nodup :=
  (nodup_dedupFirst _).filter _

theorem mem_umbrellaVals (df : Table) (c : Cell) :
    c ∈ umbrellaVals df ↔
      c ∈ df.rows.map (fun r => getCell df.cols r "Umbrella") ∧ c ≠ none := by
  rw [umbrellaVals, List.mem_filter, mem_dedupFirst]
  refine and_congr_right fun _ => ?_
  cases c <;> simp

theorem firstIdx_cons_self {α : Type} [DecidableEq α] (a : α) (t : List α) :
    firstIdx (a :: t) a = 0 := by
  simp [firstIdx]

theorem firstIdx_cons_ne {α : Type} [DecidableEq α] {a b : α} (t : List α)
    (h : b ≠ a) : firstIdx (b :: t) a = firstIdx t a + 1 := by
  simp [firstIdx, h]

theorem firstIdx_filter_lt {α : Type} [DecidableEq α] (p : α → Bool) :
    ∀ (l : List α) (x y : α), x ∈ l.filter p → y ∈ l.filter p →
      firstIdx (l.filter p) x < firstIdx (l.filter p) y →
      firstIdx l x < firstIdx l y
  | [], x, y, hx, _, _ => by simp at hx
  | b :: t, x, y, hx, hy, hlt => by
    by_cases hpb : p b = true
    · rw [List.filter_cons_of_pos hpb] at hx hy hlt
      by_cases hxb : x = b
      · subst hxb
        by_cases hyb : y = x
        · subst hyb
          rw [firstIdx_cons_self] at hlt
          exact absurd hlt (Nat.not_lt_zero _)
        · rw [firstIdx_cons_self]
          rw [firstIdx_cons_ne _ (fun h => hyb h.symm)]
          exact Nat.succ_pos _
      · by_cases hyb : y = b
        · subst hyb
          rw [firstIdx_cons_self] at hlt
          exact absurd hlt (Nat.not_lt_zero _)
        · have hxf : x ∈ t.filter p := by
            cases List.mem_cons.mp hx with
            | inl h => exact absurd h hxb
            | inr h => exact h
          have hyf : y ∈ t.filter p := by
            cases List.mem_cons.mp hy with
            | inl h => exact absurd h hyb
            | inr h => exact h
          rw [firstIdx_cons_ne _ (fun h => hxb h.symm),
            firstIdx_cons_ne _ (fun h => hyb h.symm)] at hlt
          rw [firstIdx_cons_ne _ (fun h => hxb h.symm),
            firstIdx_cons_ne _ (fun h => hyb h.symm)]
          exact Nat.succ_lt_succ
            (firstIdx_filter_lt p t x y hxf hyf (Nat.lt_of_succ_lt_succ hlt))
    · rw [List.filter_cons_of_neg hpb] at hx hy hlt
      have hxb : b ≠ x := fun h => hpb (h ▸ List.of_mem_filter hx)
      have hyb : b ≠ y := fun h => hpb (h ▸ List.of_mem_filter hy)
      rw [firstIdx_cons_ne _ hxb, firstIdx_cons_ne _ hyb]
      exact Nat.succ_lt_succ (firstIdx_filter_lt p t x y hx hy hlt)

theorem dedupFirstRec_pairwise_firstIdx {α : Type} [DecidableEq α] :
    ∀ l : List α,
      (dedupFirstRec l).Pairwise (fun x y => firstIdx l x < firstIdx l y)
  | [] => by rw [dedupFirstRec]; exact List.Pairwise.nil
  | a :: as => by
    rw [dedupFirstRec]
    refine List.Pairwise.cons ?_ ?_
    · intro y hy
      have hyf : y ∈ as.filter (fun x => x ≠ a) :=
        (mem_dedupFirstRec _ y).mp hy
      have hyne : y ≠ a := by simpa using List.of_mem_filter hyf
      rw [firstIdx_cons_self, firstIdx_cons_ne _ (fun h => hyne h.symm)]
      exact Nat.succ_pos _
    · have ih := dedupFirstRec_pairwise_firstIdx (as.filter (fun x => x ≠ a))
      refine List.Pairwise.imp_of_mem ?_ ih
      intro x y hx hy hR
      have hxf := (mem_dedupFirstRec _ x).mp hx
      have hyf := (mem_dedupFirstRec _ y).mp hy
      have hxne : x ≠ a := by simpa using List.of_mem_filter hxf
      have hyne : y ≠ a := by simpa using List.of_mem_filter hyf
      rw [firstIdx_cons_ne _ (fun h => hxne h.symm),
        firstIdx_cons_ne _ (fun h => hyne h.symm)]
      exact Nat.succ_lt_succ (firstIdx_filter_lt _ as x y hxf hyf hR)
termination_by l => l.length
decreasing_by
  all_goals simp only [List.length_cons]
  all_goals exact Nat.lt_succ_of_le (List.length_filter_le _ _)

theorem dedupFirst_pairwise_firstIdx {α : Type} [DecidableEq α]
    (l : List α) :
    (dedupFirst l).Pairwise (fun x y => firstIdx l x < firstIdx l y) := by
  rw [dedupFirst_eq_rec]
  exact dedupFirstRec_pairwise_firstIdx l

theorem umbrellaVals_pairwise_firstIdx (df : Table) :
    (umbrellaVals df).Pairwise (fun x y =>
      firstIdx (df.rows.map (fun r => getCell df.cols r "Umbrella")) x <
        firstIdx (df.rows.map (fun r => getCell df.cols r "Umbrella")) y) :=
  (dedupFirst_pairwise_firstIdx _).sublist (List.filter_sublist _)

theorem aggRow_getD_key (df : Table) (keys attrs : List String)
    (k : List Cell) (hk : k.length = keys.length) (j : Nat)
    (hj : j < keys.length) :
    (aggRow df keys attrs k).getD j none = k.getD j none := by
  rw [aggRow]
  exact List.getD_append _ _ _ j (by rw [hk]; exact hj)

theorem aggFirstSpec_groupby (df : Table) (keys attrs : List String)
    (dn : Bool) :
    aggFirstSpec df (df.groupbyAgg keys attrs dn) keys attrs := by
  intro r hr i hi
  obtain ⟨k, hk, rfl⟩ := (mem_groupby_rows df keys attrs dn r).mp hr
  rw [aggRow_take df keys attrs k (keptKeys_length hk)]
  exact aggRow_getD_attr df keys attrs k (keptKeys_length hk) i hi

theorem entity_key_mem (df : Table) (keycol : String) (attrs : List String)
    (rin : List Cell) (hrin : rin ∈ df.rows)
    (hnn : getCell df.cols rin keycol ≠ none) :
    [getCell df.cols rin keycol] ∈
      (df.groupbyAgg [keycol] attrs true).keysOf 1 := by
  refine (mem_keysOf_groupby df [keycol] attrs true _).mpr ?_
  refine (mem_keptKeys_iff df [keycol] true _).mpr ⟨⟨rin, hrin, rfl⟩, ?_⟩
  intro _ c hc
  rw [List.mem_singleton] at hc
  rw [hc]
  exact hnn

theorem lookupRow_key_none {t : Table} (hnn : t.pkNonNull 1) :
    t.lookupRow 1 [(none : Cell)] = none := by
  rw [Table.lookupRow, List.find?_eq_none]
  intro r hr
  simp only [decide_eq_true_eq]
  intro heq
  have hmem : (none : Cell) ∈ r.take 1 := by
    rw [heq]
    exact List.mem_singleton_self _
  exact hnn r hr none hmem rfl

/-! ### The claims -/

/-- Claim C2: `normalize` raises `MissingColumnError` if and only if a
required source column (`PersonId`, `DepartmentId`, `Year`, or a
per-entity attribute column) is absent from the input table; with all
required columns present it returns a bundle and raises no exception,
and any raised error names a required column that is missing. -/
theorem claim_C2_missing_column (df : Table) :
    ((∃ e, normalize_data df = Except.error e) ↔
      ¬ ∀ c ∈ colsRequired, c ∈ df.cols) ∧
    ((∃ b, normalize_data df = Except.ok b) ↔
      ∀ c ∈ colsRequired, c ∈ df.cols) ∧
    (∀ e, normalize_data df = Except.error e →
      e.col ∈ colsRequired ∧ e.col ∉ df.cols) := by
  refine ⟨⟨?_, ?_⟩, ⟨?_, ?_⟩, ?_⟩
  · rintro ⟨e, he⟩ hall
    have h2 := normalize_data_error_elim he
    exact h2.2 (hall _ h2.1)
  · exact normalize_data_error_of_missing
  · rintro ⟨b, hb⟩
    by_contra hmiss
    obtain ⟨e, he⟩ := normalize_data_error_of_missing hmiss
    rw [hb] at he
    cases he
  · exact normalize_data_ok_of_cols
  · exact fun e he => normalize_data_error_elim he

/-- Witness for C2 at concrete inputs: the empty table (missing all
required columns) errors, the full sample table succeeds. -/
theorem claim_C2_missing_column_witness :
    (∃ e, normalize_data emptyTable = Except.error e) ∧
    (∃ b, normalize_data exFlat = Except.ok b) :=
  ⟨(claim_C2_missing_column emptyTable).1.mpr (by decide),
   (claim_C2_missing_column exFlat).2.1.mpr (by decide)⟩

/-- Claim C3: for every group formed by the key columns of an output
table and every attribute column, the single representative value
emitted by `normalize_data` is the first non-null occurrence of that
attribute in original input row order (pandas `"first"`); the groups
are aggregated as-is, with no verification that their rows agree. -/
theorem claim_C3_first_non_null (df : Table) (b : AARCCollection)
    (h : normalize_data df = Except.ok b) :
    aggFirstSpec df b.persons ["PersonId"]
      ["Gender", "DegreeYear", "PersonName", "DegreeInstitutionId"] ∧
    aggFirstSpec df b.institutions ["InstitutionId"] ["InstitutionName"] ∧
    aggFirstSpec df b.departments ["DepartmentId"] ["DepartmentName"] ∧
    aggFirstSpec df b.taxonomies ["TaxonomyId"]
      ["Area", "Field", "Umbrella"] ∧
    aggFirstSpec df b.department_taxonomies dtKeyCols [] ∧
    aggFirstSpec df b.appointments appKeyCols
      ["Rank", "PrimaryAppointment"] := by
  obtain ⟨hp, hi, hd, ht, hdt, ha, -⟩ := normalize_data_ok_elim h
  rw [hp, hi, hd, ht, hdt, ha]
  exact ⟨aggFirstSpec_groupby df _ _ true, aggFirstSpec_groupby df _ _ true,
    aggFirstSpec_groupby df _ _ true, aggFirstSpec_groupby df _ _ true,
    aggFirstSpec_groupby df dtKeyCols [] false,
    aggFirstSpec_groupby df appKeyCols _ false⟩

/-- Witness for C3 on the sample table (whose repeated rows and groups
exercise the aggregation). -/
theorem claim_C3_first_non_null_witness :
    aggFirstSpec exFlat exFlatB.persons ["PersonId"]
      ["Gender", "DegreeYear", "PersonName", "DegreeInstitutionId"] ∧
    aggFirstSpec exFlat exFlatB.institutions ["InstitutionId"]
      ["InstitutionName"] ∧
    aggFirstSpec exFlat exFlatB.departments ["DepartmentId"]
      ["DepartmentName"] ∧
    aggFirstSpec exFlat exFlatB.taxonomies ["TaxonomyId"]
      ["Area", "Field", "Umbrella"] ∧
    aggFirstSpec exFlat exFlatB.department_taxonomies dtKeyCols [] ∧
    aggFirstSpec exFlat exFlatB.appointments appKeyCols
      ["Rank", "PrimaryAppointment"] :=
  claim_C3_first_non_null exFlat exFlatB rfl

/-- Claim C7: `normalize_data` is deterministic — two applications to
the same input table (same row order) return bundles that are
value-equal table by table, synthesized umbrella id assignment
included. -/
theorem claim_C7_deterministic (df : Table) (b1 b2 : AARCCollection)
    (h1 : normalize_data df = Except.ok b1)
    (h2 : normalize_data df = Except.ok b2) :
    b1.persons = b2.persons ∧ b1.institutions = b2.institutions ∧
    b1.departments = b2.departments ∧ b1.taxonomies = b2.taxonomies ∧
    b1.department_taxonomies = b2.department_taxonomies ∧
    b1.appointments = b2.appointments ∧ b1.umbrellas = b2.umbrellas := by
  have h := h1.symm.trans h2
  injection h with h
  subst h
  exact ⟨rfl, rfl, rfl, rfl, rfl, rfl, rfl⟩

/-- Witness for C7 at a concrete input. -/
theorem claim_C7_deterministic_witness :
    exFlatB.persons = exFlatB.persons ∧
    exFlatB.institutions = exFlatB.institutions ∧
    exFlatB.departments = exFlatB.departments ∧
    exFlatB.taxonomies = exFlatB.taxonomies ∧
    exFlatB.department_taxonomies = exFlatB.department_taxonomies ∧
    exFlatB.appointments = exFlatB.appointments ∧
    exFlatB.umbrellas = exFlatB.umbrellas :=
  claim_C7_deterministic exFlat exFlatB exFlatB rfl rfl

/-- Claim C9: `normalize_data` does not mutate its input: the observable
effect of a call is the returned bundle alone, and the input table the
call leaves behind is the very table passed in. -/
theorem claim_C9_no_mutation (df : Table) :
    (normalize_data_call df).2 = df ∧
    (normalize_data_call df).1 = normalize_data df :=
  ⟨rfl, rfl⟩

/-- Claim C10 (implicit): every bundle table is emitted with rows in
ascending primary-key order — the pandas default sorted grouping, with
the synthesized umbrella ids ascending by construction — not in
first-seen input order. -/
theorem claim_C10_sorted_keys (df : Table) (b : AARCCollection)
    (h : normalize_data df = Except.ok b) : bundleSorted b := by
  obtain ⟨hp, hi, hd, ht, hdt, ha, hu⟩ := normalize_data_ok_elim h
  rw [bundleSorted, hp, hi, hd, ht, hdt, ha, hu]
  exact ⟨sorted_keysOf_groupby df _ _ true, sorted_keysOf_groupby df _ _ true,
    sorted_keysOf_groupby df _ _ true, sorted_keysOf_groupby df _ _ true,
    sorted_keysOf_groupby df _ _ false, sorted_keysOf_groupby df _ _ false,
    sorted_umbrellas_keysOf df⟩

/-- Witness for C10 at a concrete input. -/
theorem claim_C10_sorted_keys_witness : bundleSorted exFlatB :=
  claim_C10_sorted_keys exFlat exFlatB rfl

/-- Claim C5: referential integrity — in every relationship table of
the bundle, each foreign key value is either null or occurs as a
primary key value of the referenced entity table. -/
theorem claim_C5_referential_integrity (df : Table) (b : AARCCollection)
    (h : normalize_data df = Except.ok b) : refIntegrity b := by
  obtain ⟨hp, hi, hd, ht, hdt, ha, -⟩ := normalize_data_ok_elim h
  constructor
  · rw [ha]
    intro r hr
    obtain ⟨k, hk, rfl⟩ := (mem_groupby_rows df _ _ false r).mp hr
    obtain ⟨⟨rin, hrin, hkey⟩, -⟩ := (mem_keptKeys_iff df _ false k).mp hk
    have hlen := keptKeys_length hk
    refine ⟨?_, ?_, ?_⟩
    · rw [aggRow_getD_key df _ _ k hlen 0 (by decide), ← hkey]
      show getCell df.cols rin "PersonId" = none ∨
        [getCell df.cols rin "PersonId"] ∈ b.persons.keysOf 1
      by_cases hnn : getCell df.cols rin "PersonId" = none
      · exact Or.inl hnn
      · refine Or.inr ?_
        rw [hp]
        exact entity_key_mem df "PersonId" _ rin hrin hnn
    · rw [aggRow_getD_key df _ _ k hlen 2 (by decide), ← hkey]
      show getCell df.cols rin "DepartmentId" = none ∨
        [getCell df.cols rin "DepartmentId"] ∈ b.departments.keysOf 1
      by_cases hnn : getCell df.cols rin "DepartmentId" = none
      · exact Or.inl hnn
      · refine Or.inr ?_
        rw [hd]
        exact entity_key_mem df "DepartmentId" _ rin hrin hnn
    · rw [aggRow_getD_key df _ _ k hlen 3 (by decide), ← hkey]
      show getCell df.cols rin "InstitutionId" = none ∨
        [getCell df.cols rin "InstitutionId"] ∈ b.institutions.keysOf 1
      by_cases hnn : getCell df.cols rin "InstitutionId" = none
      · exact Or.inl hnn
      · refine Or.inr ?_
        rw [hi]
        exact entity_key_mem df "InstitutionId" _ rin hrin hnn
  · rw [hdt]
    intro r hr
    obtain ⟨k, hk, rfl⟩ := (mem_groupby_rows df _ _ false r).mp hr
    obtain ⟨⟨rin, hrin, hkey⟩, -⟩ := (mem_keptKeys_iff df _ false k).mp hk
    have hlen := keptKeys_length hk
    refine ⟨?_, ?_⟩
    · rw [aggRow_getD_key df _ _ k hlen 0 (by decide), ← hkey]
      show getCell df.cols rin "DepartmentId" = none ∨
        [getCell df.cols rin "DepartmentId"] ∈ b.departments.keysOf 1
      by_cases hnn : getCell df.cols rin "DepartmentId" = none
      · exact Or.inl hnn
      · refine Or.inr ?_
        rw [hd]
        exact entity_key_mem df "DepartmentId" _ rin hrin hnn
    · rw [aggRow_getD_key df _ _ k hlen 1 (by decide), ← hkey]
      show getCell df.cols rin "TaxonomyId" = none ∨
        [getCell df.cols rin "TaxonomyId"] ∈ b.taxonomies.keysOf 1
      by_cases hnn : getCell df.cols rin "TaxonomyId" = none
      · exact Or.inl hnn
      · refine Or.inr ?_
        rw [ht]
        exact entity_key_mem df "TaxonomyId" _ rin hrin hnn

/-- Witness for C5 on the sample table (which has a null taxonomy
foreign key). -/
theorem claim_C5_referential_integrity_witness : refIntegrity exFlatB :=
  claim_C5_referential_integrity exFlat exFlatB rfl

/-- Counterexample to Claim C1 as stated: with an input row whose
`InstitutionId` and `TaxonomyId` are null (accepted by design — the
notebook's documented `groupby(..., dropna=False)`), the compound
primary keys of the `appointments` and `department_taxonomies` output
tables contain null values, so not every output primary-key column is
non-null. -/
theorem claim_C1_counterexample :
    ¬ (∀ (df : Table) (b : AARCCollection),
        normalize_data df = Except.ok b →
        (b.persons.pkUnique 1 ∧ b.persons.pkNonNull 1) ∧
        (b.institutions.pkUnique 1 ∧ b.institutions.pkNonNull 1) ∧
        (b.departments.pkUnique 1 ∧ b.departments.pkNonNull 1) ∧
        (b.taxonomies.pkUnique 1 ∧ b.taxonomies.pkNonNull 1) ∧
        (b.umbrellas.pkUnique 1 ∧ b.umbrellas.pkNonNull 1) ∧
        (b.department_taxonomies.pkUnique 2 ∧
          b.department_taxonomies.pkNonNull 2) ∧
        (b.appointments.pkUnique 4 ∧ b.appointments.pkNonNull 4)) := by
  intro h
  have h2 := h exFlat exFlatB rfl
  exact absurd h2.2.2.2.2.2.2.2 (by decide)

/-- Claim C1 as amended: primary keys are unique in every output table
and non-null in every entity table (whose groupby drops null keys) and
in the synthesized umbrella table; the relationship tables'
compound keys are unique and enumerate exactly the distinct key tuples
of the input, but their nullable foreign-key components (`TaxonomyId`
in `department_taxonomies`, `InstitutionId` in `appointments`) may be
null when the input has null values there. -/
theorem claim_C1_amended_pk_invariant (df : Table) (b : AARCCollection)
    (h : normalize_data df = Except.ok b) : pkInvariant df b := by
  obtain ⟨hp, hi, hd, ht, hdt, ha, hu⟩ := normalize_data_ok_elim h
  rw [pkInvariant, hp, hi, hd, ht, hdt, ha, hu]
  refine ⟨⟨pkUnique_groupby df _ _ true, pkNonNull_groupby df _ _⟩,
    ⟨pkUnique_groupby df _ _ true, pkNonNull_groupby df _ _⟩,
    ⟨pkUnique_groupby df _ _ true, pkNonNull_groupby df _ _⟩,
    ⟨pkUnique_groupby df _ _ true, pkNonNull_groupby df _ _⟩,
    ⟨pkUnique_umbrellas df, pkNonNull_umbrellas df⟩,
    pkUnique_groupby df _ _ false, pkUnique_groupby df _ _ false,
    ?_, ?_, ?_⟩
  · exact fun k => mem_keysOf_groupby df dtKeyCols [] false k
  · exact fun k =>
      mem_keysOf_groupby df appKeyCols ["Rank", "PrimaryAppointment"] false k
  · exact fun k =>
      mem_keysOf_groupby df ["DepartmentId"] ["DepartmentName"] true k

/-- Witness for amended C1 at the spec's synthetic example (three
departments, two institutions, a repeated (department, taxonomy) pair):
the invariant holds, the department entity table has exactly 3 rows and
the mapping table one row per distinct (department, taxonomy) pair. -/
theorem claim_C1_amended_pk_invariant_witness :
    pkInvariant exFlat3 exFlat3B ∧
    exFlat3B.departments.rows.length = 3 ∧
    exFlat3B.institutions.rows.length = 2 ∧
    exFlat3B.department_taxonomies.rows.length = 3 :=
  ⟨claim_C1_amended_pk_invariant exFlat3 exFlat3B rfl,
    by decide, by decide, by decide⟩

/-- Claim C8: for umbrella entities, which lack a natural identifier in
the source, the bundle synthesizes dense integer ids: the umbrella
table has one row per distinct non-null umbrella value, row `j`
carrying id `j` (consecutive integers from base 0) paired with the
`j`-th distinct value; the values are duplicate-free, are exactly the
non-null umbrella cells of the input, and are listed in strictly
increasing first-occurrence order. -/
theorem claim_C8_umbrella_ids (df : Table) (b : AARCCollection)
    (h : normalize_data df = Except.ok b) :
    b.umbrellas.rows.length = (umbrellaVals df).length ∧
    (∀ j, j < (umbrellaVals df).length →
      b.umbrellas.rows.getD j [] =
        [some (Val.i (Int.ofNat j)), (umbrellaVals df).getD j none]) ∧
    (umbrellaVals df).Nodup ∧
    (∀ c, c ∈ umbrellaVals df ↔
      c ∈ df.rows.map (fun r => getCell df.cols r "Umbrella") ∧
        c ≠ none) ∧
    (umbrellaVals df).Pairwise (fun x y =>
      firstIdx (df.rows.map (fun r => getCell df.cols r "Umbrella")) x <
        firstIdx (df.rows.map (fun r => getCell df.cols r "Umbrella")) y)
    := by
  obtain ⟨-, -, -, -, -, -, hu⟩ := normalize_data_ok_elim h
  rw [hu]
  exact ⟨umbrellas_rows_length df, fun j hj => umbrellas_rows_getD df j hj,
    umbrellaVals_nodup df, fun c => mem_umbrellaVals df c,
    umbrellaVals_pairwise_firstIdx df⟩

/-- Witness for C8 at a concrete input with two distinct umbrella
values appearing across five rows. -/
theorem claim_C8_umbrella_ids_witness :
    exFlatB.umbrellas.rows.length = (umbrellaVals exFlat).length ∧
    (∀ j, j < (umbrellaVals exFlat).length →
      exFlatB.umbrellas.rows.getD j [] =
        [some (Val.i (Int.ofNat j)), (umbrellaVals exFlat).getD j none]) ∧
    (umbrellaVals exFlat).Nodup ∧
    (∀ c, c ∈ umbrellaVals exFlat ↔
      c ∈ exFlat.rows.map (fun r => getCell exFlat.cols r "Umbrella") ∧
        c ≠ none) ∧
    (umbrellaVals exFlat).Pairwise (fun x y =>
      firstIdx (exFlat.rows.map
        (fun r => getCell exFlat.cols r "Umbrella")) x <
        firstIdx (exFlat.rows.map
          (fun r => getCell exFlat.cols r "Umbrella")) y) :=
  claim_C8_umbrella_ids exFlat exFlatB rfl

/-- Claim C6: an input row with a null foreign key (a missing taxonomy)
does not make normalization fail: a bundle is returned, the
department↔taxonomy relationship table keeps that row's key pair with
the null foreign key, and the left join of that table against the
taxonomy entity table emits the row with all three taxonomy attributes
null (unmatched key). -/
theorem claim_C6_null_foreign_key (df : Table) (r : List Cell)
    (hcols : df.cols = colsRequired) (hr : r ∈ df.rows)
    (hnull : getCell df.cols r "TaxonomyId" = none) :
    ∃ b, normalize_data df = Except.ok b ∧
      [getCell df.cols r "DepartmentId", none] ∈
        b.department_taxonomies.keysOf 2 ∧
      [getCell df.cols r "DepartmentId", none, none, none, none] ∈
        (b.department_taxonomies.joinLeft b.taxonomies 1 3).rows := by
  obtain ⟨b, hb⟩ :=
    @normalize_data_ok_of_cols df (by rw [hcols]; exact fun c hc => hc)
  obtain ⟨-, -, -, ht, hdt, -, -⟩ := normalize_data_ok_elim hb
  have hkmem : [getCell df.cols r "DepartmentId", (none : Cell)] ∈
      keptKeys df dtKeyCols false := by
    refine (mem_keptKeys_iff df dtKeyCols false _).mpr ⟨⟨r, hr, ?_⟩, by simp⟩
    show [getCell df.cols r "DepartmentId",
      getCell df.cols r "TaxonomyId"] = _
    rw [hnull]
  refine ⟨b, hb, ?_, ?_⟩
  · rw [hdt]
    exact (mem_keysOf_groupby df dtKeyCols [] false _).mpr hkmem
  · rw [hdt, ht, Table.joinLeft]
    refine List.mem_map.mpr
      ⟨aggRow df dtKeyCols [] [getCell df.cols r "DepartmentId", none],
        ?_, ?_⟩
    · exact (mem_groupby_rows df dtKeyCols [] false _).mpr ⟨_, hkmem, rfl⟩
    · show aggRow df dtKeyCols [] [getCell df.cols r "DepartmentId", none] ++
        (df.groupbyAgg ["TaxonomyId"] ["Area", "Field", "Umbrella"]
          true).attrsFor 1 3 [(none : Cell)] = _
      rw [Table.attrsFor, lookupRow_key_none
        (pkNonNull_groupby df ["TaxonomyId"] ["Area", "Field", "Umbrella"])]
      rfl

/-- Witness for C6 at the sample table's null-taxonomy row. -/
theorem claim_C6_null_foreign_key_witness :
    ∃ b, normalize_data exFlat = Except.ok b ∧
      [vi 3, none] ∈ b.department_taxonomies.keysOf 2 ∧
      [vi 3, none, none, none, none] ∈
        (b.department_taxonomies.joinLeft b.taxonomies 1 3).rows :=
  claim_C6_null_foreign_key exFlat
    (mkRow (vi 3) (vi 3) none (vi 2003) none (vs "Cleo") (vs "F")
      (vi 1992) (vi 10) (vs "Phys") (vs "MIT") (vs "C") (vs "F3") (vs "U1")
      (vs "Asst") (vb true))
    rfl (by decide) rfl

theorem rejoinRow_eq (df : Table) (b : AARCCollection)
    (hcols : df.cols = colsRequired) (halign : df.aligned)
    (hfd : fdAssumption df) (hnn : keysNonNull df)
    (hok : normalize_data df = Except.ok b)
    (r3 : List Cell) (hr3 : r3 ∈ df.rows) :
    rejoinRow b
      (aggRow df ["PersonId", "Year", "DepartmentId", "InstitutionId"]
        ["Rank", "PrimaryAppointment"]
        (rowKey df.cols
          ["PersonId", "Year", "DepartmentId", "InstitutionId"] r3))
      (aggRow df ["DepartmentId", "TaxonomyId"] []
        (rowKey df.cols ["DepartmentId", "TaxonomyId"] r3)) = r3 := by
  obtain ⟨hp, hi, hd, ht, hdt, ha, -⟩ := normalize_data_ok_elim hok
  have hkalen : (rowKey df.cols
      ["PersonId", "Year", "DepartmentId", "InstitutionId"] r3).length =
      (["PersonId", "Year", "DepartmentId", "InstitutionId"] :
        List String).length := rowKey_length _ _ _
  have hktlen : (rowKey df.cols ["DepartmentId", "TaxonomyId"] r3).length =
      (["DepartmentId", "TaxonomyId"] : List String).length :=
    rowKey_length _ _ _
  have h0 : (aggRow df ["PersonId", "Year", "DepartmentId", "InstitutionId"]
      ["Rank", "PrimaryAppointment"]
      (rowKey df.cols ["PersonId", "Year", "DepartmentId", "InstitutionId"]
        r3)).getD 0 none = getCell df.cols r3 "PersonId" :=
    aggRow_getD_key df _ _ _ hkalen 0 (by decide)
  have h1 : (aggRow df ["PersonId", "Year", "DepartmentId", "InstitutionId"]
      ["Rank", "PrimaryAppointment"]
      (rowKey df.cols ["PersonId", "Year", "DepartmentId", "InstitutionId"]
        r3)).getD 1 none = getCell df.cols r3 "Year" :=
    aggRow_getD_key df _ _ _ hkalen 1 (by decide)
  have h2 : (aggRow df ["PersonId", "Year", "DepartmentId", "InstitutionId"]
      ["Rank", "PrimaryAppointment"]
      (rowKey df.cols ["PersonId", "Year", "DepartmentId", "InstitutionId"]
        r3)).getD 2 none = getCell df.cols r3 "DepartmentId" :=
    aggRow_getD_key df _ _ _ hkalen 2 (by decide)
  have h3 : (aggRow df ["PersonId", "Year", "DepartmentId", "InstitutionId"]
      ["Rank", "PrimaryAppointment"]
      (rowKey df.cols ["PersonId", "Year", "DepartmentId", "InstitutionId"]
        r3)).getD 3 none = getCell df.cols r3 "InstitutionId" :=
    aggRow_getD_key df _ _ _ hkalen 3 (by decide)
  have h4 : (aggRow df ["PersonId", "Year", "DepartmentId", "InstitutionId"]
      ["Rank", "PrimaryAppointment"]
      (rowKey df.cols ["PersonId", "Year", "DepartmentId", "InstitutionId"]
        r3)).getD 4 none = getCell df.cols r3 "Rank" :=
    (aggRow_getD_attr df _ _ _ hkalen 0 (by decide)).trans
      (firstNonNull_group_attr df _ _ hfd.2.2.2.2 r3 hr3 "Rank" (by decide))
  have h5 : (aggRow df ["PersonId", "Year", "DepartmentId", "InstitutionId"]
      ["Rank", "PrimaryAppointment"]
      (rowKey df.cols ["PersonId", "Year", "DepartmentId", "InstitutionId"]
        r3)).getD 5 none = getCell df.cols r3 "PrimaryAppointment" :=
    (aggRow_getD_attr df _ _ _ hkalen 1 (by decide)).trans
      (firstNonNull_group_attr df _ _ hfd.2.2.2.2 r3 hr3
        "PrimaryAppointment" (by decide))
  have g1 : (aggRow df ["DepartmentId", "TaxonomyId"] []
      (rowKey df.cols ["DepartmentId", "TaxonomyId"] r3)).getD 1 none =
      getCell df.cols r3 "TaxonomyId" :=
    aggRow_getD_key df _ _ _ hktlen 1 (by decide)
  have hpkey : rowKey df.cols ["PersonId"] r3 ∈
      keptKeys df ["PersonId"] true := by
    refine (mem_keptKeys_iff _ _ _ _).mpr ⟨⟨r3, hr3, rfl⟩, ?_⟩
    intro _ c hc
    rw [show rowKey df.cols ["PersonId"] r3 =
      [getCell df.cols r3 "PersonId"] from rfl, List.mem_singleton] at hc
    rw [hc]
    exact hnn r3 hr3 "PersonId" (by decide)
  have hikey : rowKey df.cols ["InstitutionId"] r3 ∈
      keptKeys df ["InstitutionId"] true := by
    refine (mem_keptKeys_iff _ _ _ _).mpr ⟨⟨r3, hr3, rfl⟩, ?_⟩
    intro _ c hc
    rw [show rowKey df.cols ["InstitutionId"] r3 =
      [getCell df.cols r3 "InstitutionId"] from rfl,
      List.mem_singleton] at hc
    rw [hc]
    exact hnn r3 hr3 "InstitutionId" (by decide)
  have hdkey : rowKey df.cols ["DepartmentId"] r3 ∈
      keptKeys df ["DepartmentId"] true := by
    refine (mem_keptKeys_iff _ _ _ _).mpr ⟨⟨r3, hr3, rfl⟩, ?_⟩
    intro _ c hc
    rw [show rowKey df.cols ["DepartmentId"] r3 =
      [getCell df.cols r3 "DepartmentId"] from rfl,
      List.mem_singleton] at hc
    rw [hc]
    exact hnn r3 hr3 "DepartmentId" (by decide)
  have htkey : rowKey df.cols ["TaxonomyId"] r3 ∈
      keptKeys df ["TaxonomyId"] true := by
    refine (mem_keptKeys_iff _ _ _ _).mpr ⟨⟨r3, hr3, rfl⟩, ?_⟩
    intro _ c hc
    rw [show rowKey df.cols ["TaxonomyId"] r3 =
      [getCell df.cols r3 "TaxonomyId"] from rfl,
      List.mem_singleton] at hc
    rw [hc]
    exact hnn r3 hr3 "TaxonomyId" (by decide)
  have hpa : b.persons.attrsFor 1 4 [getCell df.cols r3 "PersonId"] =
      [getCell df.cols r3 "Gender", getCell df.cols r3 "DegreeYear",
        getCell df.cols r3 "PersonName",
        getCell df.cols r3 "DegreeInstitutionId"] := by
    rw [hp]
    exact attrsFor_groupby_agree df ["PersonId"]
      ["Gender", "DegreeYear", "PersonName", "DegreeInstitutionId"] true
      hfd.1 r3 hr3 hpkey
  have hia : b.institutions.attrsFor 1 1
      [getCell df.cols r3 "InstitutionId"] =
      [getCell df.cols r3 "InstitutionName"] := by
    rw [hi]
    exact attrsFor_groupby_agree df ["InstitutionId"] ["InstitutionName"]
      true hfd.2.1 r3 hr3 hikey
  have hda : b.departments.attrsFor 1 1
      [getCell df.cols r3 "DepartmentId"] =
      [getCell df.cols r3 "DepartmentName"] := by
    rw [hd]
    exact attrsFor_groupby_agree df ["DepartmentId"] ["DepartmentName"]
      true hfd.2.2.1 r3 hr3 hdkey
  have hta : b.taxonomies.attrsFor 1 3 [getCell df.cols r3 "TaxonomyId"] =
      [getCell df.cols r3 "Area", getCell df.cols r3 "Field",
        getCell df.cols r3 "Umbrella"] := by
    rw [ht]
    exact attrsFor_groupby_agree df ["TaxonomyId"]
      ["Area", "Field", "Umbrella"] true hfd.2.2.2.1 r3 hr3 htkey
  have hrow := row_eq_map_getCell hcols halign hr3
  simp only [rejoinRow]
  rw [h0, h1, h2, h3, h4, h5, g1, hpa, hia, hda, hta]
  exact hrow

/-- Counterexample to Claim C4 as stated: the functional-dependency
assumption alone does not give the round trip. Two rows that share a
department but differ in person and taxonomy satisfy every per-group
agreement, yet re-joining cross-combines the department's appointments
with all of its taxonomies, producing a row absent from the input. -/
theorem claim_C4_counterexample :
    ¬ (∀ (df : Table) (b : AARCCollection), df.cols = colsRequired →
        df.aligned → fdAssumption df →
        normalize_data df = Except.ok b →
        ∀ r, r ∈ (rejoin b).rows ↔ r ∈ df.rows) := by
  intro h
  have h2 := h exCross exCrossB rfl (by decide) (by decide) rfl
    (mkRow (vi 1) (vi 1) (vi 10) (vi 2000) (vi 102) (vs "Ada") (vs "F")
      (vi 1990) (vi 10) (vs "CS") (vs "MIT") (vs "B") (vs "F2") (vs "U2")
      (vs "Full") (vb true))
  exact absurd (h2.mp (by decide)) (by decide)

/-- Claim C4 as amended: the round trip holds for inputs that, beyond
the per-group functional-dependency assumption, have non-null entity
keys and are closed under recombining appointment keys with their
department's taxonomy pairs (the flat AARC file's replication shape):
re-joining all bundle tables on their declared keys and projecting onto
the original column set reproduces exactly the set of distinct rows of
the flat input. -/
theorem claim_C4_amended_round_trip (df : Table) (b : AARCCollection)
    (hcols : df.cols = colsRequired) (halign : df.aligned)
    (hfd : fdAssumption df) (hnn : keysNonNull df) (hjc : joinComplete df)
    (hok : normalize_data df = Except.ok b) :
    ∀ r, r ∈ (rejoin b).rows ↔ r ∈ df.rows := by
  obtain ⟨hp, hi, hd, ht, hdt, ha, -⟩ := normalize_data_ok_elim hok
  intro r
  constructor
  · intro hr
    rw [rejoin] at hr
    simp only [List.mem_flatMap, List.mem_map, List.mem_filter] at hr
    obtain ⟨ra, hra, rt, ⟨hrt, hcond⟩, rfl⟩ := hr
    rw [ha] at hra
    obtain ⟨ka, hka, rfl⟩ := (mem_groupby_rows df _ _ false ra).mp hra
    obtain ⟨⟨r1, hr1, hkey1⟩, -⟩ := (mem_keptKeys_iff df _ false ka).mp hka
    subst hkey1
    rw [hdt] at hrt
    obtain ⟨kt, hkt, rfl⟩ := (mem_groupby_rows df _ _ false rt).mp hrt
    obtain ⟨⟨r2, hr2, hkey2⟩, -⟩ := (mem_keptKeys_iff df _ false kt).mp hkt
    subst hkey2
    have e1 : (aggRow df
        ["PersonId", "Year", "DepartmentId", "InstitutionId"]
        ["Rank", "PrimaryAppointment"]
        (rowKey df.cols ["PersonId", "Year", "DepartmentId",
          "InstitutionId"] r1)).getD 2 none =
        getCell df.cols r1 "DepartmentId" :=
      aggRow_getD_key df _ _ _ (rowKey_length _ _ _) 2 (by decide)
    have e2 : (aggRow df ["DepartmentId", "TaxonomyId"] []
        (rowKey df.cols ["DepartmentId", "TaxonomyId"] r2)).getD 0 none =
        getCell df.cols r2 "DepartmentId" :=
      aggRow_getD_key df _ _ _ (rowKey_length _ _ _) 0 (by decide)
    have hd12 : getCell df.cols r1 "DepartmentId" =
        getCell df.cols r2 "DepartmentId" := by
      have hc2 := of_decide_eq_true hcond
      rw [e1, e2] at hc2
      exact hc2.symm
    obtain ⟨r3, hr3, hke1, hke2⟩ := hjc r1 hr1 r2 hr2 hd12
    have hke1b : rowKey df.cols
        ["PersonId", "Year", "DepartmentId", "InstitutionId"] r3 =
        rowKey df.cols
          ["PersonId", "Year", "DepartmentId", "InstitutionId"] r1 := hke1
    have hke2b : rowKey df.cols ["DepartmentId", "TaxonomyId"] r3 =
        rowKey df.cols ["DepartmentId", "TaxonomyId"] r2 := hke2
    rw [← hke1b, ← hke2b,
      rejoinRow_eq df b hcols halign hfd hnn hok r3 hr3]
    exact hr3
  · intro hr
    rw [rejoin]
    refine List.mem_flatMap.mpr
      ⟨aggRow df ["PersonId", "Year", "DepartmentId", "InstitutionId"]
        ["Rank", "PrimaryAppointment"]
        (rowKey df.cols ["PersonId", "Year", "DepartmentId",
          "InstitutionId"] r), ?_, ?_⟩
    · rw [ha]
      refine (mem_groupby_rows df _ _ false _).mpr ⟨_, ?_, rfl⟩
      exact (mem_keptKeys_iff df _ false _).mpr ⟨⟨r, hr, rfl⟩, by simp⟩
    · refine List.mem_map.mpr
        ⟨aggRow df ["DepartmentId", "TaxonomyId"] []
          (rowKey df.cols ["DepartmentId", "TaxonomyId"] r), ?_, ?_⟩
      · refine List.mem_filter.mpr ⟨?_, ?_⟩
        · rw [hdt]
          refine (mem_groupby_rows df _ _ false _).mpr ⟨_, ?_, rfl⟩
          exact (mem_keptKeys_iff df _ false _).mpr ⟨⟨r, hr, rfl⟩, by simp⟩
        · have e1 : (aggRow df
              ["PersonId", "Year", "DepartmentId", "InstitutionId"]
              ["Rank", "PrimaryAppointment"]
              (rowKey df.cols ["PersonId", "Year", "DepartmentId",
                "InstitutionId"] r)).getD 2 none =
              getCell df.cols r "DepartmentId" :=
            aggRow_getD_key df _ _ _ (rowKey_length _ _ _) 2 (by decide)
          have e2 : (aggRow df ["DepartmentId", "TaxonomyId"] []
              (rowKey df.cols ["DepartmentId", "TaxonomyId"] r)).getD 0
                none =
              getCell df.cols r "DepartmentId" :=
            aggRow_getD_key df _ _ _ (rowKey_length _ _ _) 0 (by decide)
          exact decide_eq_true (by rw [e1, e2])
      · exact rejoinRow_eq df b hcols halign hfd hnn hok r hr

/-- Witness for amended C4 at the spec's synthetic example, which is
functionally dependent, has non-null keys and is join-complete. -/
theorem claim_C4_amended_round_trip_witness :
    (mkRow (vi 1) (vi 1) (vi 10) (vi 2000) (vi 101) (vs "Ada") (vs "F")
      (vi 1990) (vi 10) (vs "CS") (vs "MIT") (vs "A") (vs "F1") (vs "U1")
      (vs "Full") (vb true)) ∈ (rejoin exFlat3B).rows ↔
    (mkRow (vi 1) (vi 1) (vi 10) (vi 2000) (vi 101) (vs "Ada") (vs "F")
      (vi 1990) (vi 10) (vs "CS") (vs "MIT") (vs "A") (vs "F1") (vs "U1")
      (vs "Full") (vb true)) ∈ exFlat3.rows :=
  claim_C4_amended_round_trip exFlat3 exFlat3B rfl (by decide) (by decide)
    (by decide) (by decide) rfl
    (mkRow (vi 1) (vi 1) (vi 10) (vi 2000) (vi 101) (vs "Ada") (vs "F")
      (vi 1990) (vi 10) (vs "CS") (vs "MIT") (vs "A") (vs "F1") (vs "U1")
      (vs "Full") (vb true))
